import Mathlib

/-!
Verification of the surface-stac-tools repository (the stac_manager
package): a shallow embedding, in Lean 4, of the data model and the
operations of src/stac_manager/, together with theorems settling the
frozen claims about the natural-language specification.

Modelling conventions:
- Python strings used as paths are modelled as List Char, so that the
  character-level operations (basename, split on a dot, lower, strip)
  are structural; other identifiers are Lean String values.
- Python floats appearing in bounding boxes and timestamps are modelled
  as rationals (the claims are about min/max ordering and equality of
  literal values, on which the rational model is faithful).
- A Python 4-float bbox list [xmin, ymin, xmax, ymax] is modelled as a
  4-field structure BBox.
- Fallible operations return Except; a ValueError raised by the code is
  an Except.error carrying the structured payload of the message.
- datetime.now() is modelled by an explicit parameter fed to the
  functions that call it.
-/

namespace StacManager

/-! ## Character and path utilities

os.path.basename and str.split are modelled at the character level.
-/

/-- Python s.split(sep) for a single-character separator: always returns
a nonempty list of (possibly empty) segments. -/
def splitOnChar (sep : Char) : List Char → List (List Char)
  | [] => [[]]
  | c :: cs =>
      if c = sep then [] :: splitOnChar sep cs
      else
        match splitOnChar sep cs with
        | [] => [[c]]
        | h :: t => (c :: h) :: t

theorem splitOnChar_ne_nil (sep : Char) (l : List Char) :
    splitOnChar sep l ≠ [] := by
  induction l with
  | nil => simp [splitOnChar]
  | cons c cs ih =>
      simp only [splitOnChar]
      by_cases h : c = sep
      · simp [h]
      · simp only [h, if_false]
        cases hs : splitOnChar sep cs with
        | nil => simp
        | cons x t => simp

/-- os.path.basename: the portion of the path after the last slash
(the whole string when no slash is present). -/
def pyBasename (p : List Char) : List Char :=
  (splitOnChar '/' p).getLastD []

/-- AbstractItem._get_file_name: basename(data_path).split(".")[0]
(src/stac_manager/item_manager.py lines 27-30). -/
def getFileName (p : List Char) : List Char :=
  (splitOnChar '.' (pyBasename p)).headD []

/-- The spec-side reading of the derived identifier: the portion of the
basename strictly before the first dot. -/
def beforeFirstDot (s : List Char) : List Char :=
  s.takeWhile (fun c => c ≠ '.')

theorem splitOnChar_headD_eq_takeWhile (sep : Char) (l : List Char) :
    (splitOnChar sep l).headD [] = l.takeWhile (fun c => c ≠ sep) := by
  induction l with
  | nil => simp [splitOnChar]
  | cons c cs ih =>
      simp only [splitOnChar]
      by_cases h : c = sep
      · subst h; simp [List.takeWhile]
      · simp only [h, if_false]
        cases hs : splitOnChar sep cs with
        | nil => exact absurd hs (splitOnChar_ne_nil sep cs)
        | cons x t =>
            simp only [List.headD_cons]
            rw [hs] at ih
            simp only [List.headD_cons] at ih
            simp [List.takeWhile, h, ih]

/-! ## Bounding boxes and the extent fold -/

/-- A bounding box [xmin, ymin, xmax, ymax]. -/
structure BBox where
  xmin : ℚ
  ymin : ℚ
  xmax : ℚ
  ymax : ℚ
  deriving DecidableEq, Repr

/-- Merge of two bounding boxes: component-wise min of the mins and max
of the maxes (the widening step of the extent aggregation). -/
def mergeBBox (a b : BBox) : BBox :=
  ⟨min a.xmin b.xmin, min a.ymin b.ymin, max a.xmax b.xmax, max a.ymax b.ymax⟩

/-- One widening step of the extent aggregator over an optional
accumulator: on the first bbox the accumulator is seeded to exactly that
bbox, afterwards it is merged component-wise. -/
def widenBBox (acc : Option BBox) (b : BBox) : Option BBox :=
  match acc with
  | none => some b
  | some a => some (mergeBBox a b)

/-- Modelled from the spec: the full recompute of a collection extent
from the bboxes of the items currently present
(pystac.Collection.update_extent_from_items, delegated to by
CollectionManager.update_extent_from_items and
CatalogManager._update_all_collection_extents; the pystac source is not
part of this repository). The spec: merged bbox = component-wise min of
mins, max of maxes over every item currently in the collection. -/
def extentBBoxOfItems (bs : List BBox) : Option BBox :=
  bs.foldl widenBBox none

/-- The spec-side formulation of the aggregate: each component is the
min (resp. max) over the whole multiset of bboxes. -/
def specAggBBox : List BBox → Option BBox
  | [] => none
  | b :: bs =>
      some ⟨(bs.map BBox.xmin).foldl min b.xmin,
            (bs.map BBox.ymin).foldl min b.ymin,
            (bs.map BBox.xmax).foldl max b.xmax,
            (bs.map BBox.ymax).foldl max b.ymax⟩

theorem mergeBBox_comm (a b : BBox) : mergeBBox a b = mergeBBox b a := by
  simp [mergeBBox, min_comm, max_comm]

theorem mergeBBox_assoc (a b c : BBox) :
    mergeBBox (mergeBBox a b) c = mergeBBox a (mergeBBox b c) := by
  simp [mergeBBox, min_assoc, max_assoc]

theorem widenBBox_right_comm (z : Option BBox) (x y : BBox) :
    widenBBox (widenBBox z x) y = widenBBox (widenBBox z y) x := by
  cases z with
  | none => simp [widenBBox, mergeBBox_comm]
  | some a =>
      simp only [widenBBox, Option.some.injEq]
      rw [mergeBBox_assoc, mergeBBox_assoc, mergeBBox_comm x y]

theorem foldl_widenBBox_some (bs : List BBox) (a : BBox) :
    bs.foldl widenBBox (some a) = some (bs.foldl mergeBBox a) := by
  induction bs generalizing a with
  | nil => rfl
  | cons b bs ih => simp [List.foldl_cons, widenBBox, ih]

theorem foldl_mergeBBox_components (bs : List BBox) (a : BBox) :
    bs.foldl mergeBBox a =
      ⟨(bs.map BBox.xmin).foldl min a.xmin,
       (bs.map BBox.ymin).foldl min a.ymin,
       (bs.map BBox.xmax).foldl max a.xmax,
       (bs.map BBox.ymax).foldl max a.ymax⟩ := by
  induction bs generalizing a with
  | nil => rfl
  | cons b bs ih => simp [List.foldl_cons, ih, mergeBBox]

theorem extentBBoxOfItems_eq_specAggBBox (l : List BBox) :
    extentBBoxOfItems l = specAggBBox l := by
  cases l with
  | nil => rfl
  | cons b bs =>
      simp only [extentBBoxOfItems, List.foldl_cons, specAggBBox]
      show bs.foldl widenBBox (some b) = _
      rw [foldl_widenBBox_some, foldl_mergeBBox_components]

/-! ## Extents (src/stac_manager/catalog_extents.py) -/

/-- A pystac Extent: spatial bboxes plus temporal [start, end] intervals;
timestamps are rationals (an abstract totally ordered clock). -/
structure ExtentModel where
  bboxes : List BBox
  intervals : List (ℚ × ℚ)
  deriving DecidableEq, Repr

/-- The global bbox [-180, -90, 180, 90]. -/
def globalBBox : BBox := ⟨-180, -90, 180, 90⟩

/-- GenericExtent(bbox, temporal_interval).get_extent()
(src/stac_manager/catalog_extents.py lines 13-44): when bbox is None it
falls back to the global bbox, when temporal_interval is None it falls
back to [now, now] where now = datetime.now(timezone.utc), passed here
as the explicit parameter now. -/
def genericExtentGet (bbox : Option BBox) (temporalInterval : Option (ℚ × ℚ))
    (now : ℚ) : ExtentModel :=
  { bboxes := [bbox.getD globalBBox],
    intervals := [temporalInterval.getD (now, now)] }

/-! ## Items, collections, the catalog tree
(src/stac_manager/catalog_manager.py, collection_manager.py) -/

/-- A property value in an item's free-form property bag. -/
inductive PVal where
  | s (v : String)
  | n (v : ℚ)
  deriving DecidableEq, Repr

/-- An asset attached to an item: href, optional media type, roles,
optional title and description. -/
structure AssetModel where
  href : List Char
  mediaType : Option String
  roles : List String
  title : Option (List Char)
  description : Option (List Char)
  deriving DecidableEq, Repr

/-- A pystac Item: identifier, optional bbox, creation timestamp,
property bag, assets keyed by derived name, and the identifier-only
back-reference to the owning collection. -/
structure ItemModel where
  id : List Char
  bbox : Option BBox
  datetime : ℚ
  properties : List (List Char × PVal)
  assets : List (List Char × AssetModel)
  collection : Option String
  deriving DecidableEq, Repr

/-- A pystac Collection held as a child of the catalog. -/
structure CollectionState where
  id : String
  title : String
  description : String
  extent : ExtentModel
  items : List ItemModel
  deriving DecidableEq, Repr

/-- The catalog's children, in insertion order (every child in scope is
a Collection, matching the isinstance filter in the source). -/
abbrev CatalogState := List CollectionState

/-- CollectionManager.__init__ (src/stac_manager/collection_manager.py
lines 11-31): each of id/title/description falls back to its default
when the supplied string is falsy (empty), and the extent falls back to
GenericExtent().get_extent() when None. -/
def mkCollectionManager (collectionId title description : String)
    (extent : Option ExtentModel) (now : ℚ) : CollectionState :=
  { id := if collectionId = "" then "Default collection id" else collectionId,
    title := if title = "" then "Default collection title" else title,
    description := if description = "" then "Default collection description" else description,
    extent := extent.getD (genericExtentGet none none now),
    items := [] }

/-- CatalogManager._collection_exists (catalog_manager.py lines 313-318). -/
def collectionExists (cat : CatalogState) (collectionId : String) : Bool :=
  cat.any (fun c => c.id = collectionId)

/-- CatalogManager.add_child_collection (catalog_manager.py lines
88-105): always constructs the CollectionManager, then attaches its
collection only when no collection with the given id is present. -/
def addChildCollection (cat : CatalogState) (collectionId title description : String)
    (extent : Option ExtentModel) (now : ℚ) : CatalogState :=
  let c := mkCollectionManager collectionId title description extent now
  if collectionExists cat collectionId then cat else cat ++ [c]

/-! ## Python dict operations

Python dicts are modelled as association lists in insertion order with
unique keys; lookup returns the first binding.
-/

/-- Lookup in an association list (first binding wins). -/
def alookup {K V : Type} [DecidableEq K] (k : K) : List (K × V) → Option V
  | [] => none
  | p :: ps => if p.1 = k then some p.2 else alookup k ps

/-- The Python double-splat dict merge of a then b: on a shared key the
value from b wins while keeping a's position; keys only in b are
appended in b's order. -/
def dictMerge {K V : Type} [DecidableEq K] (a b : List (K × V)) : List (K × V) :=
  a.map (fun p => (p.1, (alookup p.1 b).getD p.2)) ++
    b.filter (fun p => (alookup p.1 a).isNone)

/-- Python d[k] = v: replaces the binding in place when the key is
present, appends it otherwise. -/
def dictUpdate {K V : Type} [DecidableEq K] (d : List (K × V)) (k : K) (v : V) :
    List (K × V) :=
  if (alookup k d).isSome then
    d.map (fun p => if p.1 = k then (k, v) else p)
  else d ++ [(k, v)]

/-! ## Metadata records and media types -/

/-- The normalized record produced by a metadata extractor
(stac_metadata.py): the fields consumed by the item factories.
Geometry, projection properties and stac_extensions fold into
properties; extraction itself (rasterio / xarray I/O) is the external
backend and enters as this record. -/
structure MetadataRecord where
  bbox : Option BBox
  mediaType : Option String
  properties : List (List Char × PVal)
  vrtFiles : List (List Char)
  mdId : Option (List Char)
  subItems : List ItemModel
  deriving DecidableEq, Repr

/-- FILE_EXT_TO_MEDIA_TYPE (src/stac_manager/constants.py), with the
pystac MediaType enum members represented by their names. -/
def fileExtToMediaType : List (List Char × String) :=
  [(".cog".data, "COG"), (".fgb".data, "FLATGEOBUF"), (".geojson".data, "GEOJSON"),
   (".gpkg".data, "GEOPACKAGE"), (".geotiff".data, "GEOTIFF"), (".tiff".data, "TIFF"),
   (".tif".data, "TIFF"), (".hdf".data, "HDF"), (".h5".data, "HDF5"),
   (".html".data, "HTML"), (".jpg".data, "JPEG"), (".jpeg".data, "JPEG"),
   (".jp2".data, "JPEG2000"), (".json".data, "JSON"), (".parquet".data, "PARQUET"),
   (".png".data, "PNG"), (".txt".data, "TEXT"), (".kml".data, "KML"),
   (".xml".data, "XML"), (".pdf".data, "PDF"), (".zarr".data, "ZARR"),
   (".nc".data, "NETCDF")]

/-- os.path.splitext(p)[-1]: the extension (with its dot) of the last
component, where leading dots of the component do not start an
extension. -/
def pySplitextExt (p : List Char) : List Char :=
  let b := pyBasename p
  let rest := b.dropWhile (fun c => c = '.')
  if rest.any (fun c => c = '.') then '.' :: (splitOnChar '.' rest).getLastD []
  else []

/-- MetaDataExtractor.get_media_type (stac_metadata.py lines 72-88):
FILE_EXT_TO_MEDIA_TYPE lookup of the lower-cased extension. -/
def getMediaType (filePath : List Char) : Option String :=
  alookup ((pySplitextExt filePath).map Char.toLower) fileExtToMediaType

/-! ## Item factories (src/stac_manager/item_manager.py) -/

/-- The keyword arguments threaded through create_item: item_id,
datetime and extra properties. -/
structure Kwargs where
  itemId : Option (List Char)
  datetime : Option ℚ
  properties : List (List Char × PVal)
  deriving DecidableEq, Repr

/-- create_item called with no keyword arguments. -/
def noKwargs : Kwargs := ⟨none, none, []⟩

/-- RasterItem.create_assets (item_manager.py lines 64-80): one asset
keyed by the derived file name. -/
def createRasterAssets (dataPath : List Char) (md : MetadataRecord) :
    List (List Char × AssetModel) :=
  let assetKey := getFileName dataPath
  [(assetKey,
    { href := dataPath, mediaType := md.mediaType, roles := ["data"],
      title := some assetKey, description := none })]

/-- RasterItem.create_item (item_manager.py lines 38-61). The item's
properties are the double-splat merge of the kwargs properties with the
extractor-derived properties, in that order, so the extractor-derived
value wins on a shared key. -/
def createRasterItem (dataPath : List Char) (md : MetadataRecord) (kw : Kwargs)
    (now : ℚ) : ItemModel :=
  { id := kw.itemId.getD (getFileName dataPath),
    bbox := md.bbox,
    datetime := kw.datetime.getD now,
    properties := dictMerge kw.properties md.properties,
    assets := createRasterAssets dataPath md,
    collection := none }

/-- VRTMetaData.get_vrt_files (stac_metadata.py lines 227-232): the
backend's file list is passed through unchanged; a falsy report (None
or the empty list) becomes the empty list. rasterio's
DatasetReader.files is GDAL's GetFileList, whose report for a VRT
includes the path of the VRT dataset itself ahead of its sources. -/
def getVrtFiles (files : Option (List (List Char))) : List (List Char) :=
  match files with
  | none => []
  | some fs => if fs = [] then [] else fs

/-- The per-item properties built by VRTItem.create_item (lines
97-101): the extractor-derived properties updated with vrt:source_count
and vrt:type. -/
def vrtItemProperties (md : MetadataRecord) : List (List Char × PVal) :=
  dictUpdate (dictUpdate md.properties "vrt:source_count".data
      (PVal.n md.vrtFiles.length)) "vrt:type".data (PVal.s "mosaic")

/-- VRTItem.create_assets (item_manager.py lines 118-150): the asset
dict starts with the main file under the key 'vrt' and then inserts one
asset per entry of the metadata's vrt_files list, keyed by the derived
file name. -/
def createVRTAssets (dataPath : List Char) (md : MetadataRecord) :
    List (List Char × AssetModel) :=
  md.vrtFiles.foldl
    (fun assets sourceFile =>
      let assetKey := getFileName sourceFile
      dictUpdate assets assetKey
        { href := sourceFile, mediaType := getMediaType sourceFile,
          roles := ["source"],
          title := some ("Source ".data ++ assetKey),
          description := some ("Source file referenced by the VRT".data) })
    [("vrt".data,
      { href := dataPath, mediaType := md.mediaType, roles := ["data", "vrt"],
        title := none, description := none })]

/-- VRTItem.create_item (item_manager.py lines 88-116). -/
def createVRTItem (dataPath : List Char) (md : MetadataRecord) (kw : Kwargs)
    (now : ℚ) : ItemModel :=
  { id := kw.itemId.getD (getFileName dataPath),
    bbox := md.bbox,
    datetime := kw.datetime.getD now,
    properties := dictMerge kw.properties (vrtItemProperties md),
    assets := createVRTAssets dataPath md,
    collection := none }

/-- NetCDFItem.create_item (item_manager.py lines 218-239); its body
coincides with RasterItem.create_item. -/
def createNetCDFItem (dataPath : List Char) (md : MetadataRecord) (kw : Kwargs)
    (now : ℚ) : ItemModel :=
  createRasterItem dataPath md kw now

/-- CatalogJsonItem.create_assets (item_manager.py lines 185-210): the
'stac_catalog' asset plus every pooled sub-item's assets merged flat. -/
def createCatalogJsonAssets (dataPath : List Char) (md : MetadataRecord) :
    List (List Char × AssetModel) :=
  md.subItems.foldl
    (fun assets sourceItem =>
      sourceItem.assets.foldl (fun acc p => dictUpdate acc p.1 p.2) assets)
    [("stac_catalog".data,
      { href := dataPath, mediaType := md.mediaType,
        roles := ["data", "stac_catalog"], title := none, description := none })]

/-- CatalogJsonItem.create_item (item_manager.py lines 158-183): the id
comes from the metadata's id, falling back to the derived file name. -/
def createCatalogJsonItem (dataPath : List Char) (md : MetadataRecord) (kw : Kwargs)
    (now : ℚ) : ItemModel :=
  { id := md.mdId.getD (getFileName dataPath),
    bbox := md.bbox,
    datetime := kw.datetime.getD now,
    properties := dictMerge kw.properties md.properties,
    assets := createCatalogJsonAssets dataPath md,
    collection := none }

/-- The concrete item factory classes registered in
ItemFactoryManager._factory_mapping. -/
inductive FactoryKind where
  | raster
  | vrtKind
  | netcdf
  | catalogJson
  deriving DecidableEq, Repr

/-- ItemFactoryManager._factory_mapping (item_manager.py lines
266-273): keyed by the dotted lower-case extension. -/
def factoryMapping : List (List Char × FactoryKind) :=
  [(".tif".data, FactoryKind.raster), (".tiff".data, FactoryKind.raster),
   (".vrt".data, FactoryKind.vrtKind), (".nc".data, FactoryKind.netcdf),
   (".json".data, FactoryKind.catalogJson)]

/-- The structured payloads of the ValueError messages raised along
CatalogManager.add_item_to_collection; the except clause re-raises them
with the prefix 'Error creating item: ', preserving the payload. -/
inductive AddItemError where
  | unsupportedDataType (dataType : List Char)
  | collectionNotFound (collectionId : String)
  deriving DecidableEq, Repr

/-- ItemFactoryManager.get_item_factory (item_manager.py lines
283-302): looks the lower-cased data type up in the mapping and raises
the unsupported-data-type ValueError on a miss. -/
def getItemFactory (dataType : List Char) : Except AddItemError FactoryKind :=
  match alookup (dataType.map Char.toLower) factoryMapping with
  | some f => Except.ok f
  | none => Except.error (AddItemError.unsupportedDataType dataType)

/-- factory.create_item dispatched on the factory class. -/
def createItemViaFactory (fk : FactoryKind) (dataPath : List Char)
    (md : MetadataRecord) (kw : Kwargs) (now : ℚ) : ItemModel :=
  match fk with
  | FactoryKind.raster => createRasterItem dataPath md kw now
  | FactoryKind.vrtKind => createVRTItem dataPath md kw now
  | FactoryKind.netcdf => createNetCDFItem dataPath md kw now
  | FactoryKind.catalogJson => createCatalogJsonItem dataPath md kw now

/-- The dispatch key computed by CatalogManager.add_item_to_collection
(catalog_manager.py line 124): Path(data_path).suffix.lower().lstrip of
the dot. -/
def rfindChar (c : Char) (s : List Char) : Option Nat :=
  match s.reverse.findIdx? (fun x => x = c) with
  | some j => some (s.length - 1 - j)
  | none => none

/-- pathlib.PurePath.suffix: the extension of the final component,
empty unless the last dot sits strictly inside the name. -/
def pathSuffix (p : List Char) : List Char :=
  let name := pyBasename p
  match rfindChar '.' name with
  | some i => if 0 < i ∧ i < name.length - 1 then name.drop i else []
  | none => []

def dispatchKey (dataPath : List Char) : List Char :=
  ((pathSuffix dataPath).map Char.toLower).dropWhile (fun c => c = '.')

/-- Modelled from the spec: pystac.Collection.update_extent_from_items
(the pystac source is not part of this repository) re-derives the
extent as the single overall bbox of the items currently present,
component-wise min of mins and max of maxes, and the single overall
[min, max] interval of their datetimes (spec section 3, Extent). -/
def collectionUpdateExtentFromItems (col : CollectionState) : CollectionState :=
  { col with extent :=
      { bboxes :=
          match extentBBoxOfItems (col.items.filterMap ItemModel.bbox) with
          | some b => [b]
          | none => [],
        intervals :=
          match col.items.map ItemModel.datetime with
          | [] => []
          | t :: ts => [(ts.foldl min t, ts.foldl max t)] } }

/-- Apply f to the first collection carrying the given id (the one
get_collection_by_id returns). -/
def modifyFirstCollection (cat : CatalogState) (collectionId : String)
    (f : CollectionState → CollectionState) : CatalogState :=
  match cat with
  | [] => []
  | c :: cs =>
      if c.id = collectionId then f c :: cs
      else c :: modifyFirstCollection cs collectionId f

/-- CatalogManager.add_item_to_collection (catalog_manager.py lines
107-150): the dispatch key is the lower-cased suffix with its dot
stripped; the factory builds the item (extraction enters as md); the
collection is then resolved by id, the item gets its back-reference and
is added, and the collection extent is recomputed from its items.
Either ValueError is re-raised wrapped with the prefix 'Error creating
item: ', which keeps the payload modelled by AddItemError. -/
def addItemToCollection (cat : CatalogState) (collectionId : String)
    (dataPath : List Char) (md : MetadataRecord) (kw : Kwargs) (now : ℚ) :
    Except AddItemError CatalogState :=
  match getItemFactory (dispatchKey dataPath) with
  | Except.error e => Except.error e
  | Except.ok fk =>
      let item := createItemViaFactory fk dataPath md kw now
      if collectionExists cat collectionId then
        Except.ok (modifyFirstCollection cat collectionId (fun col =>
          collectionUpdateExtentFromItems
            { col with items := col.items ++
                [{ item with collection := some col.id }] }))
      else
        Except.error (AddItemError.collectionNotFound collectionId)

/-! ## NetCDF bbox probing (src/stac_manager/stac_metadata.py) -/

/-- A coordinate variable of an opened dataset: its name and its values
(an xarray variable flattened to the list of its entries; min and max
over all dimensions only see this multiset). -/
structure NCVar where
  name : String
  values : List ℚ
  deriving DecidableEq, Repr

/-- The dataset as seen by NetCDFMetaData.get_bbox: its variables. -/
abbrev NCDataset := List NCVar

/-- The ordered latitude alias list probed by get_bbox (line 409). -/
def latNames : List String := ["lat", "latitude", "Latitude", "LAT", "y", "Y"]

/-- The ordered longitude alias list probed by get_bbox (line 410). -/
def lonNames : List String := ["lon", "longitude", "Longitude", "LON", "x", "X"]

/-- The probing loop: the first alias in the given order that names a
variable of the dataset wins. -/
def probeVar (names : List String) (ds : NCDataset) : Option NCVar :=
  match names with
  | [] => none
  | n :: rest =>
      match ds.find? (fun v => v.name = n) with
      | some v => some v
      | none => probeVar rest ds

/-- min over a variable's values (defined on nonempty data; junk 0 on
an empty variable, which has no counterpart in an opened dataset). -/
def minListQ : List ℚ → ℚ
  | [] => 0
  | x :: xs => xs.foldl min x

/-- max over a variable's values (same convention as minListQ). -/
def maxListQ : List ℚ → ℚ
  | [] => 0
  | x :: xs => xs.foldl max x

/-- NetCDFMetaData.get_bbox (stac_metadata.py lines 404-433): probes
the alias lists in order and raises the ValueError of line 427 (the
spec's AmbiguousCoordinateAxes kind) when either probe misses;
otherwise returns [lon_min, lat_min, lon_max, lat_max]. -/
def netCDFGetBBox (ds : NCDataset) : Except String (List ℚ) :=
  match probeVar latNames ds, probeVar lonNames ds with
  | some la, some lo =>
      Except.ok [minListQ lo.values, minListQ la.values,
                 maxListQ lo.values, maxListQ la.values]
  | _, _ =>
      Except.error "Could not find latitude and or longitude variables in the NetCDF file."

/-! ## Persistence (CatalogManager.save_catalog, catalog_manager.py
lines 299-329)

normalize_hrefs and save are pystac operations (their source is not
part of this repository); they are modelled from the spec: save
normalizes every href relative to the catalog root as a pure function
of the tree's identifiers, recomputes every collection's extent from
its items, and serializes the tree deterministically.
-/

/-- A collection as persisted: the data its serialization depends on.
The items' bboxes and datetimes stand for the items themselves. -/
structure PCollection where
  id : String
  itemBBoxes : List BBox
  itemDatetimes : List ℚ
  extent : ExtentModel
  href : List Char
  deriving DecidableEq, Repr

/-- The catalog tree as persisted. -/
structure PCatalog where
  id : String
  href : List Char
  children : List PCollection
  deriving DecidableEq, Repr

/-- Modelled from the spec: the extent recomputed from the item data
(spec section 3, Extent; section 4.4 full recompute). -/
def extentFromItemData (bs : List BBox) (ts : List ℚ) : ExtentModel :=
  { bboxes :=
      match extentBBoxOfItems bs with
      | some b => [b]
      | none => [],
    intervals :=
      match ts with
      | [] => []
      | t :: r => [(r.foldl min t, r.foldl max t)] }

/-- CatalogManager._update_all_collection_extents (lines 299-304):
every child collection's extent is recomputed from its items. -/
def updateAllCollectionExtents (c : PCatalog) : PCatalog :=
  { c with children := c.children.map (fun col =>
      { col with extent := extentFromItemData col.itemBBoxes col.itemDatetimes }) }

/-- Modelled from the spec: pystac normalize_hrefs sets every node's
href to the canonical location under the root path, a function of the
root and the node identifiers only (spec section 4.4 and 6). -/
def normalizeHrefs (root : List Char) (c : PCatalog) : PCatalog :=
  { c with
    href := root ++ "/catalog.json".data,
    children := c.children.map (fun col =>
      { col with href := root ++ "/".data ++ col.id.data ++ "/collection.json".data }) }

/-- Modelled from the spec: the serialization of one collection is a
deterministic function of its persisted fields. -/
def serializeCollection (col : PCollection) : String :=
  "(collection " ++ col.id ++ " href " ++ String.mk col.href ++
    " extent " ++ reprStr col.extent ++ ")"

/-- Modelled from the spec: the serialized bytes of the whole tree. -/
def serializeCatalog (c : PCatalog) : String :=
  "(catalog " ++ c.id ++ " href " ++ String.mk c.href ++ " " ++
    String.join (c.children.map serializeCollection) ++ ")"

/-- CatalogManager.save_catalog (lines 320-329): recompute all
collection extents, normalize hrefs against the catalog path, and
serialize; the result is the catalog state after the save together with
the bytes written. -/
def saveCatalog (root : List Char) (c : PCatalog) : PCatalog × String :=
  let c2 := normalizeHrefs root (updateAllCollectionExtents c)
  (c2, serializeCatalog c2)

/-! ## Association-list lemmas -/

theorem alookup_append {K V : Type} [DecidableEq K] (l1 l2 : List (K × V)) (k : K) :
    alookup k (l1 ++ l2) = (alookup k l1).elim (alookup k l2) some := by
  induction l1 with
  | nil => simp [alookup]
  | cons p ps ih =>
      by_cases h : p.1 = k
      · simp [alookup, h]
      · simp [alookup, h, ih]

theorem alookup_mapVal {K V : Type} [DecidableEq K] (a : List (K × V))
    (f : K → V → V) (k : K) :
    alookup k (a.map (fun p => (p.1, f p.1 p.2))) = (alookup k a).map (f k) := by
  induction a with
  | nil => simp [alookup]
  | cons p ps ih =>
      by_cases h : p.1 = k
      · subst h; simp [alookup]
      · simp [alookup, h, ih]

theorem alookup_filterKey {K V : Type} [DecidableEq K] (b : List (K × V))
    (q : K → Bool) (k : K) :
    alookup k (b.filter (fun p => q p.1)) =
      if q k then alookup k b else none := by
  induction b with
  | nil => simp [alookup]
  | cons p ps ih =>
      by_cases h : p.1 = k
      · subst h
        cases hq : q p.1 with
        | true => simp [List.filter, hq, alookup, ih]
        | false => simp [List.filter, hq, alookup, ih]
      · cases hq : q p.1 with
        | true => simp [List.filter, hq, alookup, h, ih]
        | false => simp [List.filter, hq, alookup, h, ih]

theorem alookup_dictMerge {K V : Type} [DecidableEq K] (a b : List (K × V)) (k : K) :
    alookup k (dictMerge a b) = (alookup k b).elim (alookup k a) some := by
  rw [dictMerge, alookup_append, alookup_mapVal (f := fun k v => (alookup k b).getD v)]
  rw [alookup_filterKey (q := fun k => (alookup k a).isNone)]
  cases ha : alookup k a with
  | some v =>
      cases hb : alookup k b with
      | some w => simp [hb]
      | none => simp [hb]
  | none =>
      cases hb : alookup k b with
      | some w => simp [ha, hb]
      | none => simp [ha, hb]

/-! ## Probing lemma for the NetCDF extractor -/

theorem probeVar_eq_none_iff (names : List String) (ds : NCDataset) :
    probeVar names ds = none ↔ ∀ n ∈ names, ∀ v ∈ ds, v.name ≠ n := by
  induction names with
  | nil => simp [probeVar]
  | cons n rest ih =>
      simp only [probeVar]
      cases hf : ds.find? (fun v => v.name = n) with
      | some v =>
          have hv : v ∈ ds := List.mem_of_find?_eq_some hf
          have hn : v.name = n := by
            have := List.find?_some hf
            simpa using this
          simp only [List.mem_cons]
          constructor
          · intro h; exact absurd h (by simp)
          · intro h
            exact absurd hn (h n (Or.inl rfl) v hv)
      | none =>
          have hnone : ∀ v ∈ ds, v.name ≠ n := by
            intro v hv
            have := List.find?_eq_none.mp hf v hv
            simpa using this
          simp only [List.mem_cons]
          rw [ih]
          constructor
          · intro h m hm v hv
            rcases hm with rfl | hm
            · exact hnone v hv
            · exact h m hm v hv
          · intro h m hm v hv
            exact h m (Or.inr hm) v hv

/-! ## Claim theorems -/

instance {E A : Type} [DecidableEq E] [DecidableEq A] : DecidableEq (Except E A) :=
  fun x y =>
  match x, y with
  | Except.ok a, Except.ok b =>
      if h : a = b then Decidable.isTrue (by rw [h])
      else Decidable.isFalse (by intro hc; cases hc; exact h rfl)
  | Except.error a, Except.error b =>
      if h : a = b then Decidable.isTrue (by rw [h])
      else Decidable.isFalse (by intro hc; cases hc; exact h rfl)
  | Except.ok _, Except.error _ => Decidable.isFalse (by intro hc; cases hc)
  | Except.error _, Except.ok _ => Decidable.isFalse (by intro hc; cases hc)

/-- Claim C1 (code bug): the spec's fresh-catalog scenario — add
collection c1 then add a 10x10 global GeoTIFF item — does not run on
the code: Path(data_path).suffix.lower().lstrip of the dot yields the
dispatch key tif, which resolves to nothing in
ItemFactoryManager._factory_mapping (whose keys keep the dot), so
add_item_to_collection raises the unsupported-data-type ValueError
instead of adding any item. -/
theorem c1_scenario_add_item_dispatch_fails :
    dispatchKey "/tmp/data.tif".data = "tif".data ∧
    alookup "tif".data factoryMapping = none ∧
    addItemToCollection (addChildCollection [] "c1" "T" "D" none 0) "c1"
        "/tmp/data.tif".data
        { bbox := some globalBBox, mediaType := some "TIFF", properties := [],
          vrtFiles := [], mdId := none, subItems := [] } noKwargs 0 =
      Except.error (AddItemError.unsupportedDataType "tif".data) := by
  refine ⟨by decide, by decide, by decide⟩

/-- Claim C2: the full recompute of a collection extent over the items
currently present is order-independent, and the aggregate is the
component-wise min of the mins and max of the maxes over the whole
multiset of item bboxes. -/
theorem c2_extent_recompute_order_independent (l1 l2 : List BBox)
    (h : l1.Perm l2) :
    extentBBoxOfItems l1 = extentBBoxOfItems l2 ∧
    extentBBoxOfItems l1 = specAggBBox l1 := by
  constructor
  · exact h.foldl_eq' (fun x _ y _ z => widenBBox_right_comm z x y) none
  · exact extentBBoxOfItems_eq_specAggBBox l1

/-- Witness for C2 at a concrete pair of permuted bbox lists. -/
theorem c2_extent_recompute_order_independent_witness :
    extentBBoxOfItems [⟨0, 0, 1, 1⟩, ⟨-2, 3, 4, 5⟩] =
      extentBBoxOfItems [⟨-2, 3, 4, 5⟩, ⟨0, 0, 1, 1⟩] ∧
    extentBBoxOfItems [⟨0, 0, 1, 1⟩, ⟨-2, 3, 4, 5⟩] =
      specAggBBox [⟨0, 0, 1, 1⟩, ⟨-2, 3, 4, 5⟩] :=
  c2_extent_recompute_order_independent _ _
    (List.Perm.swap (⟨-2, 3, 4, 5⟩ : BBox) (⟨0, 0, 1, 1⟩ : BBox) [])

/-- Claim C3 counterexample: with the empty identifier the constructor's
falsy fallback renames the attached collection to the default id while
the existence check uses the raw id, so two calls attach two duplicate
default collections and no collection with the requested id exists. -/
theorem c3_add_collection_empty_id_cex :
    (((addChildCollection (addChildCollection [] "" "T" "D" none 0)
          "" "T" "D" none 0).filter (fun c => c.id = "")).length = 1 → False) ∧
    (addChildCollection (addChildCollection [] "" "T" "D" none 0)
        "" "T" "D" none 0).length = 2 ∧
    ((addChildCollection (addChildCollection [] "" "T" "D" none 0)
        "" "T" "D" none 0).filter
          (fun c => c.id = "Default collection id")).length = 2 := by
  refine ⟨by decide, by decide, by decide⟩

/-- Claim C3 (amended): for a non-empty identifier and a catalog
holding at most one collection with that identifier, adding the same
collection twice leaves exactly one collection with that identifier,
the second call is a no-op, and when no extent was given the attached
collection carries the default extent. -/
theorem c3_add_collection_idempotent (cat : CatalogState)
    (id title description : String) (now : ℚ) (hid : id ≠ "")
    (hinv : (cat.filter (fun c => c.id = id)).length ≤ 1) :
    (((addChildCollection (addChildCollection cat id title description none now)
          id title description none now).filter (fun c => c.id = id)).length = 1) ∧
    addChildCollection (addChildCollection cat id title description none now)
        id title description none now =
      addChildCollection cat id title description none now ∧
    ((cat.filter (fun c => c.id = id)).length = 0 →
      ∃ col ∈ addChildCollection (addChildCollection cat id title description none now)
          id title description none now,
        col.id = id ∧ col.extent = genericExtentGet none none now) := by
  by_cases h : collectionExists cat id
  · have h1 : addChildCollection cat id title description none now = cat := by
      simp [addChildCollection, h]
    have hex : ∃ c ∈ cat, c.id = id := by
      simpa [collectionExists, List.any_eq_true] using h
    obtain ⟨c, hc, hcid⟩ := hex
    have hmem : c ∈ cat.filter (fun c => c.id = id) := by
      simp [List.mem_filter, hc, hcid]
    have hpos : 0 < (cat.filter (fun c => c.id = id)).length :=
      List.length_pos.mpr (List.ne_nil_of_mem hmem)
    have hone : (cat.filter (fun c => c.id = id)).length = 1 :=
      Nat.le_antisymm hinv hpos
    refine ⟨by rw [h1, h1]; exact hone, by rw [h1, h1], ?_⟩
    intro h0
    rw [h0] at hone
    exact absurd hone (by simp)
  · have h1 : addChildCollection cat id title description none now =
        cat ++ [mkCollectionManager id title description none now] := by
      simp [addChildCollection, h]
    have hcid : (mkCollectionManager id title description none now).id = id := by
      simp [mkCollectionManager, hid]
    have hfilnil : cat.filter (fun c => c.id = id) = [] := by
      rw [List.filter_eq_nil_iff]
      intro c hc
      have : ¬ (c.id = id) := by
        intro hcontra
        exact h (by simp [collectionExists, List.any_eq_true]; exact ⟨c, hc, hcontra⟩)
      simpa using this
    have hexists2 : collectionExists
        (cat ++ [mkCollectionManager id title description none now]) id = true := by
      simp [collectionExists, List.any_eq_true]
      exact Or.inr (by simpa using hcid)
    have h2 : addChildCollection
        (cat ++ [mkCollectionManager id title description none now])
        id title description none now =
        cat ++ [mkCollectionManager id title description none now] := by
      simp [addChildCollection, hexists2]
    refine ⟨?_, by rw [h1, h2], ?_⟩
    · rw [h1, h2, List.filter_append, hfilnil]
      simp [hcid]
    · intro _
      refine ⟨mkCollectionManager id title description none now, ?_, hcid, rfl⟩
      rw [h1, h2]
      simp

/-- Witness for C3 at the fresh catalog with identifier c1. -/
theorem c3_add_collection_idempotent_witness :
    (((addChildCollection (addChildCollection [] "c1" "T" "D" none 0)
          "c1" "T" "D" none 0).filter (fun c => c.id = "c1")).length = 1) ∧
    addChildCollection (addChildCollection [] "c1" "T" "D" none 0)
        "c1" "T" "D" none 0 =
      addChildCollection [] "c1" "T" "D" none 0 ∧
    ((List.filter (fun c => c.id = "c1") ([] : CatalogState)).length = 0 →
      ∃ col ∈ addChildCollection (addChildCollection [] "c1" "T" "D" none 0)
          "c1" "T" "D" none 0,
        col.id = "c1" ∧ col.extent = genericExtentGet none none 0) :=
  c3_add_collection_idempotent [] "c1" "T" "D" 0 (by decide) (by decide)

/-- Claim C4 (code bug): add_item on a collection identifier absent
from the catalog raises the unsupported-data-type ValueError of the
extension dispatch — which precedes the collection lookup — rather
than the collection-not-found error naming the identifier; the tree is
left unchanged because the error is raised before any mutation. -/
theorem c4_add_item_missing_collection_wrong_error :
    addItemToCollection [] "missing" "/x/data.tif".data
        { bbox := some globalBBox, mediaType := some "TIFF", properties := [],
          vrtFiles := [], mdId := none, subItems := [] } noKwargs 0 =
      Except.error (AddItemError.unsupportedDataType "tif".data) ∧
    (addItemToCollection [] "missing" "/x/data.tif".data
        { bbox := some globalBBox, mediaType := some "TIFF", properties := [],
          vrtFiles := [], mdId := none, subItems := [] } noKwargs 0 =
      Except.error (AddItemError.collectionNotFound "missing") → False) := by
  refine ⟨by decide, by decide⟩

/-- Claim C5 counterexample: for the shared key k the built raster
Item's property bag holds the extractor-derived value, not the
caller-supplied override, because create_item splats the kwargs
properties first and the metadata properties second. -/
theorem c5_overrides_lose_cex :
    alookup "k".data (createRasterItem "f.tif".data
        { bbox := none, mediaType := none,
          properties := [("k".data, PVal.s "md")],
          vrtFiles := [], mdId := none, subItems := [] }
        { itemId := none, datetime := none,
          properties := [("k".data, PVal.s "ov")] } 0).properties =
      some (PVal.s "md") ∧
    (alookup "k".data (createRasterItem "f.tif".data
        { bbox := none, mediaType := none,
          properties := [("k".data, PVal.s "md")],
          vrtFiles := [], mdId := none, subItems := [] }
        { itemId := none, datetime := none,
          properties := [("k".data, PVal.s "ov")] } 0).properties =
      some (PVal.s "ov") → False) := by
  refine ⟨by decide, by decide⟩

/-- Claim C5 (amended): on key collision the extractor-derived property
value takes precedence over the caller-supplied override, for both the
raster and the mosaic builders (for the mosaic one, after the vrt
enrichment of the extracted properties); an override survives exactly
when the extractor produced no value for its key. -/
theorem c5_metadata_properties_precedence (dataPath : List Char)
    (md : MetadataRecord) (kw : Kwargs) (now : ℚ) (k : List Char) :
    alookup k (createRasterItem dataPath md kw now).properties =
      (alookup k md.properties).elim (alookup k kw.properties) some ∧
    alookup k (createVRTItem dataPath md kw now).properties =
      (alookup k (vrtItemProperties md)).elim (alookup k kw.properties) some :=
  ⟨alookup_dictMerge kw.properties md.properties k,
   alookup_dictMerge kw.properties (vrtItemProperties md) k⟩

/-- The metadata record of a mosaic a.vrt with one constituent b.tif,
with the sub-source list produced by get_vrt_files from the backend
report, which (as rasterio's DatasetReader.files does) lists the VRT
dataset's own path ahead of its sources. -/
def vrtExampleMetadata : MetadataRecord :=
  { bbox := some globalBBox, mediaType := none, properties := [],
    vrtFiles := getVrtFiles (some ["a.vrt".data, "b.tif".data]),
    mdId := none, subItems := [] }

/-- Claim C6 counterexample: get_vrt_files keeps the mosaic definition
file itself when the backend's report lists it, so the sub-source list
contains the VRT path and the built Item carries three assets (the
mosaic asset plus one per backend entry, the mosaic file among them)
instead of the claimed one-plus-constituents two. -/
theorem c6_vrt_files_keep_mosaic_file_cex :
    "a.vrt".data ∈ getVrtFiles (some ["a.vrt".data, "b.tif".data]) ∧
    (createVRTAssets "a.vrt".data vrtExampleMetadata).length = 3 ∧
    ((createVRTAssets "a.vrt".data vrtExampleMetadata).length = 2 → False) := by
  refine ⟨by decide, by decide, by decide⟩

/-- Claim C6 (amended): get_vrt_files passes the backend's file list
through unchanged (a falsy report becomes the empty list) and performs
no exclusion of the mosaic definition file, so the built Item carries
the vrt asset plus one asset per entry of the backend report — the
mosaic file included whenever the backend lists it. -/
theorem c6_get_vrt_files_passthrough :
    (∀ o : Option (List (List Char)), getVrtFiles o = o.getD []) ∧
    (createVRTAssets "a.vrt".data vrtExampleMetadata).length =
      1 + vrtExampleMetadata.vrtFiles.length := by
  constructor
  · intro o
    cases o with
    | none => rfl
    | some fs =>
        by_cases h : fs = []
        · subst h; rfl
        · simp [getVrtFiles, h]
  · decide

/-- Claim C7: the array extractor's bbox probe fails exactly when no
latitude alias or no longitude alias names a dataset variable, and on
success the bbox is [lon_min, lat_min, lon_max, lat_max] from the
probed coordinate variables' extrema. -/
theorem c7_netcdf_bbox_alias_probing (ds : NCDataset) :
    ((∃ msg, netCDFGetBBox ds = Except.error msg) ↔
      ((∀ n ∈ latNames, ∀ v ∈ ds, v.name ≠ n) ∨
       (∀ n ∈ lonNames, ∀ v ∈ ds, v.name ≠ n))) ∧
    (∀ la lo, probeVar latNames ds = some la → probeVar lonNames ds = some lo →
      netCDFGetBBox ds = Except.ok
        [minListQ lo.values, minListQ la.values,
         maxListQ lo.values, maxListQ la.values]) := by
  constructor
  · rw [← probeVar_eq_none_iff latNames ds, ← probeVar_eq_none_iff lonNames ds]
    cases hla : probeVar latNames ds with
    | none =>
        simp [netCDFGetBBox, hla]
    | some la =>
        cases hlo : probeVar lonNames ds with
        | none => simp [netCDFGetBBox, hla, hlo]
        | some lo => simp [netCDFGetBBox, hla, hlo]
  · intro la lo hla hlo
    simp [netCDFGetBBox, hla, hlo]

/-- The dataset of the spec's scenario: coordinate variables named
Latitude and Longitude, which are not the first-choice aliases. -/
def exampleNCDataset : NCDataset :=
  [⟨"Latitude", [1, 2]⟩, ⟨"Longitude", [3, 4]⟩]

/-- Witness for C7: the Latitude and Longitude dataset succeeds with the
bbox [lon_min, lat_min, lon_max, lat_max]. -/
theorem c7_netcdf_bbox_alias_probing_witness :
    netCDFGetBBox exampleNCDataset = Except.ok [3, 1, 4, 2] := by
  have h := (c7_netcdf_bbox_alias_probing exampleNCDataset).2
    ⟨"Latitude", [1, 2]⟩ ⟨"Longitude", [3, 4]⟩ (by decide) (by decide)
  rw [h]
  decide

/-- Claim C8: saving twice with no mutation in between writes
byte-identical output, and the catalog state after the second save
equals the state after the first: the extent recompute and the href
normalization are idempotent. -/
theorem c8_save_catalog_idempotent (root : List Char) (c : PCatalog) :
    (saveCatalog root (saveCatalog root c).1).2 = (saveCatalog root c).2 ∧
    (saveCatalog root (saveCatalog root c).1).1 = (saveCatalog root c).1 := by
  have key : normalizeHrefs root (updateAllCollectionExtents
      (normalizeHrefs root (updateAllCollectionExtents c))) =
      normalizeHrefs root (updateAllCollectionExtents c) := by
    cases c with
    | mk cid chref children =>
        simp only [normalizeHrefs, updateAllCollectionExtents, List.map_map,
          PCatalog.mk.injEq, true_and]
        induction children with
        | nil => rfl
        | cons col cols ih =>
            simp only [List.map_cons, List.cons.injEq]
            exact ⟨by cases col; rfl, ih⟩
  exact ⟨congrArg serializeCatalog key, key⟩

/-- Claim C9: GenericExtent with neither spatial nor temporal data
yields the global bbox [-180, -90, 180, 90] and the degenerate interval
[now, now], whose start equals its end. -/
theorem c9_generic_extent_default (now : ℚ) :
    genericExtentGet none none now =
      { bboxes := [⟨-180, -90, 180, 90⟩], intervals := [(now, now)] } ∧
    ∀ iv ∈ (genericExtentGet none none now).intervals, iv.1 = iv.2 := by
  constructor
  · rfl
  · intro iv hiv
    simp [genericExtentGet] at hiv
    rw [hiv]

/-- Claim C10: the derived identifier is the basename truncated at the
first dot — not the stem with only the final extension removed — so the
distinct files a.b.tif and a.c.tif share the identifier a. -/
theorem c10_get_file_name_first_dot :
    (∀ p : List Char, getFileName p = beforeFirstDot (pyBasename p)) ∧
    getFileName "a.b.tif".data = "a".data ∧
    getFileName "a.c.tif".data = "a".data ∧
    ("a.b.tif".data = "a.c.tif".data → False) := by
  refine ⟨fun p => ?_, by decide, by decide, by decide⟩
  exact splitOnChar_headD_eq_takeWhile '.' (pyBasename p)

end StacManager
